import Mathlib

/-!
# CryptoLiquid: verification of the aggregation, metrics and storage core

Shallow embedding of the data-aggregation core of the CryptoLiquid repository:
the in-memory symbol store (`MemStorage`), the request cache
(`getCachedOrFetch`), the order-book synthesizer (`generateOrderBookData`),
the liquidity-metrics engine (`calculateLiquidityMetrics`), the provider
adapters (`fetchYahooFinanceData`, `fetchAlphaVantageDailyData`), the
fallback aggregator (`fetchAllDataForSymbol`) and the market-comparison
endpoint (`marketComparison`).

Numbers are modelled as rationals.  JavaScript `Math.random()` calls are
modelled by an explicit stream of draws `rand : ℕ → ℚ` consumed in call
order.  `Date.now()` is an explicit `now : ℤ` argument.  Network calls are
explicit arguments describing the outcome of the call (`Except`-valued, or a
small inductive describing the shape of the provider response), so each
source function becomes a total function of its inputs and the outcomes of
the calls it performs.  The single JavaScript non-finite value reachable in
the score computation (`Math.log10 0 = -Infinity`) is modelled by the
two-constructor type `JsNum`.
-/

namespace CryptoLiquid

/-- `DepthLevel` from `shared/schema.ts`: one synthetic order-book level. -/
structure DepthLevel where
  price : ℚ
  size : ℚ
deriving DecidableEq

/-- The `slippageImpact` record of a snapshot: estimated price impact for
small/medium/large orders. -/
structure SlippageImpact where
  small : ℚ
  medium : ℚ
  large : ℚ
deriving DecidableEq

/-- The optional `depthLevels` field of a snapshot. -/
structure DepthLevels where
  bids : List DepthLevel
  asks : List DepthLevel
deriving DecidableEq

/-- `NormalizedLiquiditySnapshot` from `shared/schema.ts`.  Optional fields
of the TypeScript interface are `Option`-valued. -/
structure NormalizedLiquiditySnapshot where
  symbol : String
  timestamp : ℤ
  bidPrice : ℚ
  askPrice : ℚ
  bidSize : ℚ
  askSize : ℚ
  volume24h : ℚ
  depthLevels : Option DepthLevels
  source : String
  liquidityScore : Option ℤ
  marketDepthRatio : Option ℚ
  volumeToMcapRatio : Option ℚ
  spreadPercentage : Option ℚ
  slippageImpact : Option SlippageImpact
deriving DecidableEq

/-- `Trade` from `shared/schema.ts`. -/
structure Trade where
  symbol : String
  timestamp : ℤ
  price : ℚ
  size : ℚ
  isBuyerMaker : Bool
deriving DecidableEq

/-! ## Symbol store (`MemStorage`, `server/storage.ts`)

The two `Map`s of `MemStorage` are modelled as functions into `Option`, so
an absent key is distinguishable from an empty value, exactly as for a
JavaScript `Map`. -/

/-- The mutable state of `MemStorage` (the `users` map is outside the
specified core and is omitted). -/
structure MemStorage where
  liquiditySnapshots : String → Option NormalizedLiquiditySnapshot
  tradeHistory : String → Option (List Trade)
  symbols : List String

/-- The freshly constructed `MemStorage`: empty maps and the configured
symbol universe. -/
def MemStorage.init : MemStorage where
  liquiditySnapshots := fun _ => none
  tradeHistory := fun _ => none
  symbols := ["BTC/USD", "ETH/USD", "LTC/USD", "XRP/USD", "BCH/USD"]

/-- `MemStorage.getSymbols`. -/
def MemStorage.getSymbols (st : MemStorage) : List String :=
  st.symbols

/-- `MemStorage.getLiquiditySnapshot`. -/
def MemStorage.getLiquiditySnapshot (st : MemStorage) (symbol : String) :
    Option NormalizedLiquiditySnapshot :=
  st.liquiditySnapshots symbol

/-- `MemStorage.saveLiquiditySnapshot`: `this.liquiditySnapshots.set(snapshot.symbol, snapshot)`. -/
def MemStorage.saveLiquiditySnapshot (st : MemStorage)
    (snapshot : NormalizedLiquiditySnapshot) : MemStorage :=
  { st with
    liquiditySnapshots := fun s =>
      if s = snapshot.symbol then some snapshot else st.liquiditySnapshots s }

/-- `MemStorage.getRecentTrades`: `(this.tradeHistory.get(symbol) || []).slice(0, limit)`. -/
def MemStorage.getRecentTrades (st : MemStorage) (symbol : String)
    (limit : ℕ := 50) : List Trade :=
  ((st.tradeHistory symbol).getD []).take limit

/-- `MemStorage.saveTrade`: unshift the trade onto the symbol's list and, when
the list exceeds 100 entries, truncate it to 100 (`trades.length = 100`). -/
def MemStorage.saveTrade (st : MemStorage) (trade : Trade) : MemStorage :=
  let old := (st.tradeHistory trade.symbol).getD []
  let trades := trade :: old
  let trades := if trades.length > 100 then trades.take 100 else trades
  { st with
    tradeHistory := fun s =>
      if s = trade.symbol then some trades else st.tradeHistory s }

/-- A sequence of `saveTrade` calls, in call order. -/
def saveTrades (st : MemStorage) (ts : List Trade) : MemStorage :=
  ts.foldl MemStorage.saveTrade st

/-- The retained trade list for a symbol (`tradeHistory.get(symbol) || []`). -/
def MemStorage.historyList (st : MemStorage) (symbol : String) : List Trade :=
  (st.tradeHistory symbol).getD []

/-- Witness input for `getRecentTrades_saveTrades`: 150 pairwise-distinct
trades for one symbol. -/
def witnessTrades : List Trade :=
  (List.range 150).map (fun i : ℕ =>
    { symbol := "BTC/USD", timestamp := (i : ℤ), price := 1, size := 1,
      isBuyerMaker := false })

/-- A concrete trade on another symbol, for the C10 witness. -/
def witnessEthTrade : Trade :=
  { symbol := "ETH/USD", timestamp := 7, price := 2000, size := 1,
    isBuyerMaker := true }

/-- A concrete snapshot on another symbol, for the C10 witness. -/
def witnessEthSnapshot : NormalizedLiquiditySnapshot :=
  { symbol := "ETH/USD", timestamp := 7, bidPrice := 1999, askPrice := 2001,
    bidSize := 1, askSize := 1, volume24h := 500, depthLevels := none,
    source := "yahoo-finance", liquidityScore := some 60,
    marketDepthRatio := some 1, volumeToMcapRatio := none,
    spreadPercentage := some (1/10), slippageImpact := none }

/-! ## Request cache (`getCachedOrFetch`, `server/routes.ts`)

The module-level `apiCache` map is passed as explicit state; the function
returns the fetch outcome together with the resulting cache state.  The
outward `axios.get` call is an explicit `Except`-valued argument. -/

/-- An entry of `apiCache`: `{ data, timestamp }`. -/
structure CacheEntry (α : Type) where
  data : α
  timestamp : ℤ

/-- The fetch arm of `getCachedOrFetch`: on success store
`{ data, timestamp: now }` under the cache key and return the data; on
failure rethrow, leaving the cache untouched. -/
def fetchAndStore {α ε : Type} (apiCache : String → Option (CacheEntry α))
    (now : ℤ) (cacheKey : String) (fetchResult : Except ε α) :
    Except ε α × (String → Option (CacheEntry α)) :=
  match fetchResult with
  | Except.ok data =>
      (Except.ok data,
       fun k => if k = cacheKey then some ⟨data, now⟩ else apiCache k)
  | Except.error e => (Except.error e, apiCache)

/-- `getCachedOrFetch(url, cacheKey, ttlMs)`: return the cached payload when
the entry is younger than `ttlMs`, otherwise fetch and store.  The `url`
argument only feeds the outward call, which is already summarized by
`fetchResult`. -/
def getCachedOrFetch {α ε : Type} (apiCache : String → Option (CacheEntry α))
    (now : ℤ) (cacheKey : String) (ttlMs : ℤ) (fetchResult : Except ε α) :
    Except ε α × (String → Option (CacheEntry α)) :=
  match apiCache cacheKey with
  | some cached =>
      if now - cached.timestamp < ttlMs then (Except.ok cached.data, apiCache)
      else fetchAndStore apiCache now cacheKey fetchResult
  | none => fetchAndStore apiCache now cacheKey fetchResult

/-- A concrete cache for the C6 witness: one entry under key `"k"` with
timestamp 0. -/
def witnessCache : String → Option (CacheEntry ℕ) :=
  fun k => if k = "k" then some ⟨5, 0⟩ else none

/-! ## Order-book synthesizer (`generateOrderBookData`, `server/routes.ts`)

Each loop iteration performs two `Math.random()` calls (one for the price
offset, one for the size); the bid loop runs before the ask loop, so bid
level `i` consumes draws `2i` and `2i+1` and ask level `i` consumes draws
`20+2i` and `20+2i+1` of the draw stream `rand`. -/

/-- `generateOrderBookData(bidPrice, askPrice, bidSize, askSize)`:
10 synthetic `[price, size]` levels per side. -/
def generateOrderBookData (bidPrice askPrice bidSize askSize : ℚ)
    (rand : ℕ → ℚ) : List (ℚ × ℚ) × List (ℚ × ℚ) :=
  let bids := (List.range 10).map (fun i : ℕ =>
    let priceDecrease := ((i : ℚ) * (5/10000) + (1/10000) * rand (2*i)) * bidPrice
    let size := bidSize * (1 - (i : ℚ) * (8/100)) * ((8/10) + rand (2*i+1) * (4/10))
    (bidPrice - priceDecrease, size))
  let asks := (List.range 10).map (fun i : ℕ =>
    let priceIncrease := ((i : ℚ) * (5/10000) + (1/10000) * rand (20 + 2*i)) * askPrice
    let size := askSize * (1 - (i : ℚ) * (8/100)) * ((8/10) + rand (20 + 2*i+1) * (4/10))
    (askPrice + priceIncrease, size))
  (bids, asks)

/-! ## Liquidity metrics engine (`calculateLiquidityMetrics`, `server/routes.ts`)

All arithmetic in this function is rational except `Math.log10(volume24h)`,
which is `-Infinity` at 0 and irrational elsewhere.  The value of
`Math.log10` is therefore an explicit function argument `log10 : ℚ → JsNum`,
where `JsNum` is a rational extended with the single non-finite value
`-Infinity` that the score computation can see.  All theorems below hold for
every choice of `log10`. -/

/-- A JavaScript number as reachable inside the liquidity-score computation:
a finite value or `-Infinity` (the value of `Math.log10 0`). -/
inductive JsNum where
  | negInf : JsNum
  | fin : ℚ → JsNum
deriving DecidableEq

/-- JavaScript addition restricted to `JsNum`: any `-Infinity` operand
absorbs. -/
def JsNum.add : JsNum → JsNum → JsNum
  | fin a, fin b => fin (a + b)
  | _, _ => negInf

/-- `Math.min(a, x)` for a finite `a`: `-Infinity` is below everything. -/
def JsNum.jsMin (a : ℚ) : JsNum → JsNum
  | negInf => negInf
  | fin q => fin (min a q)

/-- `Math.max(0, x)`: `-Infinity` is below 0, so the result is finite. -/
def JsNum.jsMax0 : JsNum → ℚ
  | negInf => 0
  | fin q => max 0 q

/-- Multiplication by a positive constant (the source multiplies
`Math.log10(volume24h)` by 4): `-Infinity · c = -Infinity` for `c > 0`. -/
def JsNum.mulConst (c : ℚ) : JsNum → JsNum
  | negInf => negInf
  | fin q => fin (q * c)

/-- `Math.round`: round half toward positive infinity. -/
def jsRound (q : ℚ) : ℤ := ⌊q + 1/2⌋

/-- The record returned by `calculateLiquidityMetrics`. -/
structure LiquidityMetrics where
  liquidityScore : ℤ
  marketDepthRatio : ℚ
  volumeToMcapRatio : Option ℚ
  spreadPercentage : ℚ
  slippageImpact : SlippageImpact
deriving DecidableEq

/-- The level walk of `calculateBuySlippage`: consume ask levels from the
cheapest upward while order size remains, accumulating cost.  Returns the
remaining unfilled size and the accumulated cost. -/
def walkAsks : List DepthLevel → ℚ → ℚ → ℚ × ℚ
  | [], remainingSize, totalCost => (remainingSize, totalCost)
  | level :: rest, remainingSize, totalCost =>
      if remainingSize > 0 then
        let sizeToTake := min remainingSize level.size
        walkAsks rest (remainingSize - sizeToTake)
          (totalCost + sizeToTake * level.price)
      else (remainingSize, totalCost)

/-- `calculateBuySlippage(orderSize)` (closure inside
`calculateLiquidityMetrics`): walk the ask levels; price any remainder at
the last level's price; slippage is the percentage of the average fill
price above the ask.  Rational division by zero is `0` here, which is only
exercised when `orderSize = 0` or `askPrice = 0` — situations no claim
constrains. -/
def calculateBuySlippage (asks : List DepthLevel) (askPrice : ℚ)
    (orderSize : ℚ) : ℚ :=
  let walked := walkAsks asks orderSize 0
  let totalCost :=
    match asks.getLast? with
    | some lastLevel =>
        if walked.1 > 0 then walked.2 + walked.1 * lastLevel.price else walked.2
    | none => walked.2
  let averagePrice := totalCost / orderSize
  if askPrice > 0 then (averagePrice / askPrice - 1) * 100 else 0

/-- `calculateLiquidityMetrics(price, bidPrice, askPrice, bidSize, askSize,
volume24h, marketCap, depthLevels)`. -/
def calculateLiquidityMetrics (log10 : ℚ → JsNum)
    (price bidPrice askPrice bidSize askSize volume24h : ℚ)
    (marketCap : Option ℚ) (depthLevels : Option DepthLevels) :
    LiquidityMetrics :=
  let spread := askPrice - bidPrice
  let spreadPercentage := if price > 0 then spread / price * 100 else 0
  let marketDepthRatio := if askSize > 0 then bidSize / askSize else 1
  let volumeToMcapRatio :=
    match marketCap with
    | some mc => if mc > 0 then some (volume24h / mc * 100) else none
    | none => none
  let slippageImpact :=
    match depthLevels with
    | some dl =>
        if dl.bids.length > 0 ∧ dl.asks.length > 0 then
          { small := calculateBuySlippage dl.asks askPrice (volume24h * (1/1000))
            medium := calculateBuySlippage dl.asks askPrice (volume24h * (5/1000))
            large := calculateBuySlippage dl.asks askPrice (volume24h * (1/100)) }
        else
          { small := spreadPercentage * (1/2)
            medium := spreadPercentage * (3/2)
            large := spreadPercentage * 3 }
    | none =>
        { small := spreadPercentage * (1/2)
          medium := spreadPercentage * (3/2)
          large := spreadPercentage * 3 }
  let spreadScore := max 0 (40 - spreadPercentage * 100)
  let volumeScore : JsNum :=
    match marketCap with
    | some mc =>
        if mc > 0 then JsNum.fin (min 40 (volume24h / mc * 40000))
        else JsNum.jsMin 40 ((log10 volume24h).mulConst 4)
    | none => JsNum.jsMin 40 ((log10 volume24h).mulConst 4)
  let depthBalanceScore := 20 - |1 - marketDepthRatio| * 10
  let liquidityScore := jsRound
    (JsNum.jsMax0 (JsNum.jsMin 100
      (((JsNum.fin spreadScore).add volumeScore).add
        (JsNum.fin depthBalanceScore))))
  { liquidityScore := liquidityScore
    marketDepthRatio := marketDepthRatio
    volumeToMcapRatio := volumeToMcapRatio
    spreadPercentage := spreadPercentage
    slippageImpact := slippageImpact }

/-! ## Provider adapters and fallback aggregator (`server/routes.ts`)

The outward calls are explicit arguments:
* `yahooFinance.quote` (after the `TransformDecodeCheckError` recovery):
  `Except Unit (Option YahooQuote)` — `error` if the call or its recovery
  threw, `ok none` if no quote data came back, `ok (some q)` otherwise;
* the Alpha Vantage daily fetch: `AlphaVantageDailyResult`, distinguishing a
  thrown fetch, a response with no time series, an empty time series and a
  parsed latest bar.  `parseFloat` results that are `NaN` (missing or
  unparseable fields) are modelled as `none`. -/

/-- The fields of a Yahoo Finance quote used by the adapter.  `none` models
a missing field (JavaScript `undefined`). -/
structure YahooQuote where
  regularMarketPrice : Option ℚ
  regularMarketVolume : Option ℚ
  marketCap : Option ℚ
deriving DecidableEq

/-- The latest bar of the Alpha Vantage daily time series, as seen by the
parser: `close` is `parseFloat(latestData['4a. close (QUOTE)'])` (`none` for
`NaN`), `altClose` is the `parseFloat` of the alternative close field when
one matches, `volume` is `parseFloat(latestData['5. volume'])`. -/
structure AlphaVantageDailyBar where
  close : Option ℚ
  altClose : Option ℚ
  volume : Option ℚ
deriving DecidableEq

/-- Outcome of the Alpha Vantage daily request for one symbol. -/
inductive AlphaVantageDailyResult where
  | fetchError : AlphaVantageDailyResult
  | noTimeSeries : AlphaVantageDailyResult
  | noLatest : AlphaVantageDailyResult
  | latest : AlphaVantageDailyBar → AlphaVantageDailyResult
deriving DecidableEq

/-- The per-symbol hardcoded default close prices of
`fetchAlphaVantageDailyData`. -/
def defaultDailyPrice (symbol : String) : ℚ :=
  if symbol = "BTC/USD" then 50000
  else if symbol = "ETH/USD" then 2000
  else if symbol = "LTC/USD" then 100
  else if symbol = "XRP/USD" then 1/2
  else if symbol = "BCH/USD" then 300
  else 100

/-- The close-price resolution of `fetchAlphaVantageDailyData`: the parsed
close if finite, else the alternative field if finite, else the per-symbol
default. -/
def resolveDailyClose (symbol : String) (bar : AlphaVantageDailyBar) : ℚ :=
  match bar.close with
  | some c => c
  | none =>
      match bar.altClose with
      | some a => a
      | none => defaultDailyPrice symbol

/-- The zeroed placeholder snapshot that `fetchAlphaVantageDailyData`
returns instead of throwing when the response carries no usable time
series. -/
def placeholderDailySnapshot (symbol : String) (now : ℤ) :
    NormalizedLiquiditySnapshot :=
  { symbol := symbol, timestamp := now, bidPrice := 0, askPrice := 0,
    bidSize := 0, askSize := 0, volume24h := 0, depthLevels := none,
    source := "alphavantage-daily-error", liquidityScore := none,
    marketDepthRatio := none, volumeToMcapRatio := none,
    spreadPercentage := none, slippageImpact := none }

/-- `fetchAlphaVantageDailyData(symbol)`: placeholder snapshot when the
response has no data; otherwise bid/ask at ±0.1% around the resolved close
price, randomized sizes from the volume (draws `rand 0` and `rand 1`),
`volume24h = volume`, source `alphavantage-daily`.  A thrown fetch
propagates. -/
def fetchAlphaVantageDailyData (symbol : String)
    (fetchResult : AlphaVantageDailyResult) (now : ℤ) (rand : ℕ → ℚ) :
    Except Unit NormalizedLiquiditySnapshot :=
  match fetchResult with
  | AlphaVantageDailyResult.fetchError => Except.error ()
  | AlphaVantageDailyResult.noTimeSeries =>
      Except.ok (placeholderDailySnapshot symbol now)
  | AlphaVantageDailyResult.noLatest =>
      Except.ok (placeholderDailySnapshot symbol now)
  | AlphaVantageDailyResult.latest bar =>
      let closePrice := resolveDailyClose symbol bar
      let volume := bar.volume.getD 1000
      let spreadFactor : ℚ := 1/1000
      let bidPrice := closePrice * (1 - spreadFactor)
      let askPrice := closePrice * (1 + spreadFactor)
      let bidSize := volume * (1/10000) * ((1/2) + rand 0 * (1/2))
      let askSize := volume * (1/10000) * ((1/2) + rand 1 * (1/2))
      Except.ok
        { symbol := symbol, timestamp := now, bidPrice := bidPrice,
          askPrice := askPrice, bidSize := bidSize, askSize := askSize,
          volume24h := volume, depthLevels := none,
          source := "alphavantage-daily", liquidityScore := none,
          marketDepthRatio := none, volumeToMcapRatio := none,
          spreadPercentage := none, slippageImpact := none }

/-- The uncached body of `fetchYahooFinanceData`: fail when the quote call
threw or returned nothing; otherwise bid/ask at ±0.05% around
`regularMarketPrice || 0`, randomized sizes from `regularMarketVolume || 0`
(draws `rand 0` and `rand 1`), source `yahoo-finance`. -/
def fetchYahooQuoteSnapshot (symbol : String) (now : ℤ)
    (quoteResult : Except Unit (Option YahooQuote)) (rand : ℕ → ℚ) :
    Except Unit NormalizedLiquiditySnapshot :=
  match quoteResult with
  | Except.error _ => Except.error ()
  | Except.ok none => Except.error ()
  | Except.ok (some quoteData) =>
      let regularMarketPrice := quoteData.regularMarketPrice.getD 0
      let dayVolume := quoteData.regularMarketVolume.getD 0
      let spreadFactor : ℚ := 5/10000
      let bidPrice := regularMarketPrice * (1 - spreadFactor)
      let askPrice := regularMarketPrice * (1 + spreadFactor)
      let bidSize := dayVolume * (1/1000000) * ((1/2) + rand 0 * (1/2))
      let askSize := dayVolume * (1/1000000) * ((1/2) + rand 1 * (1/2))
      Except.ok
        { symbol := symbol, timestamp := now, bidPrice := bidPrice,
          askPrice := askPrice, bidSize := bidSize, askSize := askSize,
          volume24h := dayVolume, depthLevels := none,
          source := "yahoo-finance", liquidityScore := none,
          marketDepthRatio := none, volumeToMcapRatio := none,
          spreadPercentage := none, slippageImpact := none }

/-- `fetchYahooFinanceData(symbol)`: a snapshot cached under
`yahoo-<symbol>` younger than 30s is returned as is; otherwise the quote
call runs (the function also stores its result, which no claim observes, so
the resulting cache state is not returned here). -/
def fetchYahooFinanceData (symbol : String)
    (cached : Option (CacheEntry NormalizedLiquiditySnapshot)) (now : ℤ)
    (quoteResult : Except Unit (Option YahooQuote)) (rand : ℕ → ℚ) :
    Except Unit NormalizedLiquiditySnapshot :=
  match cached with
  | some cachedData =>
      if now - cachedData.timestamp < 30000 then Except.ok cachedData.data
      else fetchYahooQuoteSnapshot symbol now quoteResult rand
  | none => fetchYahooQuoteSnapshot symbol now quoteResult rand

/-- The market-cap lookup inside `fetchAllDataForSymbol`: a second quote
call whose failures are swallowed; `quoteData.marketCap` is used only when
truthy (so a literal 0 is ignored). -/
def marketCapOfQuote : Except Unit (Option YahooQuote) → Option ℚ
  | Except.ok (some q) =>
      match q.marketCap with
      | some mc => if mc = 0 then none else some mc
      | none => none
  | _ => none

/-- Conversion of the raw `[price, size]` levels to the snapshot's
`depthLevels` field. -/
def depthLevelsOfOrderBook (ob : List (ℚ × ℚ) × List (ℚ × ℚ)) : DepthLevels :=
  { bids := ob.1.map (fun l => { price := l.1, size := l.2 })
    asks := ob.2.map (fun l => { price := l.1, size := l.2 }) }

/-- The enrichment block that `fetchAllDataForSymbol` runs on a successful
adapter snapshot (it appears verbatim in both the Yahoo and the Alpha
Vantage arm): synthesize an order book from the snapshot's bid/ask data,
compute the metrics at the mid price, and attach both. -/
def enrichSnapshot (log10 : ℚ → JsNum) (base : NormalizedLiquiditySnapshot)
    (marketCap : Option ℚ) (rand : ℕ → ℚ) : NormalizedLiquiditySnapshot :=
  let avgPrice := (base.bidPrice + base.askPrice) / 2
  let ob := generateOrderBookData base.bidPrice base.askPrice base.bidSize
    base.askSize rand
  let depthLevels := depthLevelsOfOrderBook ob
  let metrics := calculateLiquidityMetrics log10 avgPrice base.bidPrice
    base.askPrice base.bidSize base.askSize base.volume24h marketCap
    (some depthLevels)
  { base with
    depthLevels := some depthLevels
    liquidityScore := some metrics.liquidityScore
    marketDepthRatio := some metrics.marketDepthRatio
    volumeToMcapRatio := metrics.volumeToMcapRatio
    spreadPercentage := some metrics.spreadPercentage
    slippageImpact := some metrics.slippageImpact }

/-- The zeroed error snapshot returned when every data source failed. -/
def errorSnapshot (symbol : String) (now : ℤ) : NormalizedLiquiditySnapshot :=
  { symbol := symbol, timestamp := now, bidPrice := 0, askPrice := 0,
    bidSize := 0, askSize := 0, volume24h := 0, depthLevels := none,
    source := "error", liquidityScore := some 0, marketDepthRatio := some 1,
    volumeToMcapRatio := none, spreadPercentage := some 0,
    slippageImpact := some { small := 0, medium := 0, large := 0 } }

/-- `fetchAllDataForSymbol(symbol)`: Yahoo Finance first; on any failure,
fall back to Alpha Vantage daily; if that also throws, return the zeroed
error snapshot.  Total by construction — the function never fails.  The
adapter consumes draws 0 and 1 of `rand` and the order-book synthesizer the
draws from index 2 on. -/
def fetchAllDataForSymbol (log10 : ℚ → JsNum) (symbol : String)
    (yahooCached : Option (CacheEntry NormalizedLiquiditySnapshot))
    (now : ℤ) (yahooQuoteResult : Except Unit (Option YahooQuote))
    (marketCapQuoteResult : Except Unit (Option YahooQuote))
    (dailyFetchResult : AlphaVantageDailyResult) (rand : ℕ → ℚ) :
    NormalizedLiquiditySnapshot :=
  match fetchYahooFinanceData symbol yahooCached now yahooQuoteResult rand with
  | Except.ok yahooData =>
      enrichSnapshot log10 yahooData (marketCapOfQuote marketCapQuoteResult)
        (fun n => rand (n + 2))
  | Except.error _ =>
      match fetchAlphaVantageDailyData symbol dailyFetchResult now rand with
      | Except.ok dailyData =>
          enrichSnapshot log10 dailyData none (fun n => rand (n + 2))
      | Except.error _ => errorSnapshot symbol now

/-- A Yahoo quote with a missing `regularMarketPrice`, for the C8
counterexample. -/
def missingPriceQuote : YahooQuote :=
  { regularMarketPrice := none, regularMarketVolume := some 100,
    marketCap := none }

/-- Witness for `fetchAllDataForSymbol_priority`: the spec's two-provider
scenario, provider A throwing and provider B returning price 2000 and
volume 500. -/
def witnessDailyBar : AlphaVantageDailyBar :=
  { close := some 2000, altClose := none, volume := some 500 }

/-- A concrete Yahoo quote for witnesses. -/
def witnessYahooQuote : YahooQuote :=
  { regularMarketPrice := some 100, regularMarketVolume := some 10,
    marketCap := none }

/-! ## Market comparison endpoint (`GET /api/market/comparison`)

The route reads each configured symbol's stored snapshot, skips absent and
`"error"`-sourced ones, keeps those with a defined `liquidityScore`, sorts
by score descending (comparator `scoreB - scoreA`, defaulting an undefined
score to 0; `Array.prototype.sort` is stable and is modelled by
`List.mergeSort`) and projects each snapshot to the comparison field
subset. -/

/-- The comparison-friendly projection produced by the route. -/
structure ComparisonEntry where
  symbol : String
  currentPrice : ℚ
  liquidityScore : Option ℤ
  bidPrice : ℚ
  askPrice : ℚ
  volume24h : ℚ
  spreadPercentage : Option ℚ
  marketDepthRatio : Option ℚ
  slippageImpact : Option SlippageImpact
deriving DecidableEq

/-- The per-snapshot summary record of the route. -/
def comparisonProjection (s : NormalizedLiquiditySnapshot) : ComparisonEntry :=
  { symbol := s.symbol
    currentPrice := (s.bidPrice + s.askPrice) / 2
    liquidityScore := s.liquidityScore
    bidPrice := s.bidPrice
    askPrice := s.askPrice
    volume24h := s.volume24h
    spreadPercentage := s.spreadPercentage
    marketDepthRatio := s.marketDepthRatio
    slippageImpact := s.slippageImpact }

/-- The route's sort order: `(a, b) => scoreB - scoreA`, scores defaulting
to 0 — i.e. `a` may precede `b` when `b`'s score is at most `a`'s. -/
def scoreGe (a b : NormalizedLiquiditySnapshot) : Bool :=
  b.liquidityScore.getD 0 ≤ a.liquidityScore.getD 0

/-- The stored snapshots the route keeps: one per configured symbol, in
symbol order, skipping absent snapshots and `"error"`-sourced ones. -/
def eligibleSnapshots (st : MemStorage) : List NormalizedLiquiditySnapshot :=
  st.symbols.filterMap (fun symbol =>
    match st.liquiditySnapshots symbol with
    | none => none
    | some snapshot =>
        if snapshot.source = "error" then none else some snapshot)

/-- `GET /api/market/comparison` over the store state. -/
def marketComparison (st : MemStorage) : List ComparisonEntry :=
  (((eligibleSnapshots st).filter
      (fun s => s.liquidityScore.isSome)).mergeSort scoreGe).map
    comparisonProjection

/-- Witness store for `marketComparison_spec`: one configured symbol whose
stored snapshot has a score. -/
def witnessStore : MemStorage :=
  { liquiditySnapshots := fun s =>
      if s = "ETH/USD" then some witnessEthSnapshot else none
    tradeHistory := fun _ => none
    symbols := ["ETH/USD"] }

/-! ## Theorems -/

theorem saveTrade_historyList_same (st : MemStorage) (t : Trade) :
    (st.saveTrade t).historyList t.symbol = (t :: st.historyList t.symbol).take 100 := by
  simp only [MemStorage.saveTrade, MemStorage.historyList]
  simp only [if_true, Option.getD_some]
  split
  · rfl
  · next h =>
    rw [List.take_of_length_le]
    omega

theorem saveTrade_historyList_other (st : MemStorage) (t : Trade) (s : String)
    (h : s ≠ t.symbol) :
    (st.saveTrade t).historyList s = st.historyList s := by
  unfold MemStorage.saveTrade MemStorage.historyList
  simp [h]

theorem take_cons_take (x : Trade) (l : List Trade) (n : ℕ) (hn : 1 ≤ n) :
    (x :: l.take n).take n = (x :: l).take n := by
  obtain ⟨m, rfl⟩ : ∃ m, n = m + 1 := ⟨n - 1, by omega⟩
  simp [List.take_take]

/-- After any sequence of `saveTrade` calls from the initial store, the
retained list for a symbol is the 100 most recent trades for that symbol,
newest first. -/
theorem historyList_saveTrades (ts : List Trade) (s : String) :
    (saveTrades MemStorage.init ts).historyList s
      = ((ts.filter (fun t => t.symbol = s)).reverse).take 100 := by
  induction ts using List.reverseRecOn with
  | nil => simp [saveTrades, MemStorage.historyList, MemStorage.init]
  | append_singleton ts t ih =>
    have hfold : saveTrades MemStorage.init (ts ++ [t])
        = (saveTrades MemStorage.init ts).saveTrade t := by
      simp [saveTrades]
    by_cases hsym : t.symbol = s
    · subst hsym
      rw [hfold, saveTrade_historyList_same, ih]
      rw [take_cons_take _ _ _ (by omega)]
      simp
    · rw [hfold, saveTrade_historyList_other _ _ _ (fun hs => hsym hs.symm), ih]
      simp [List.filter_append, hsym]

/-- C7: for every symbol and every sequence of `saveTrade` calls,
`getRecentTrades(symbol, limit)` returns the `min(limit, 100, number-saved)`
most recent trades for that symbol, newest first (the reversed saved
sequence, truncated), with no duplicates when the saved trades are distinct;
with 150 saves and limit 200 this instantiates to exactly the 100 most
recent trades, newest first. -/
theorem getRecentTrades_saveTrades (ts : List Trade) (s : String) (limit : ℕ)
    (hnd : ts.Nodup) :
    (saveTrades MemStorage.init ts).getRecentTrades s limit
        = ((ts.filter (fun t => t.symbol = s)).reverse).take (min limit 100)
    ∧ ((saveTrades MemStorage.init ts).getRecentTrades s limit).length
        = min limit (min 100 (ts.filter (fun t => t.symbol = s)).length)
    ∧ ((saveTrades MemStorage.init ts).getRecentTrades s limit).Nodup := by
  have heq : (saveTrades MemStorage.init ts).getRecentTrades s limit
      = ((ts.filter (fun t => t.symbol = s)).reverse).take (min limit 100) := by
    show ((saveTrades MemStorage.init ts).historyList s).take limit = _
    rw [historyList_saveTrades, List.take_take]
  refine ⟨heq, ?_, ?_⟩
  · rw [heq]
    simp only [List.length_take, List.length_reverse]
    omega
  · rw [heq]
    exact (List.take_sublist _ _).nodup (List.nodup_reverse.mpr (hnd.filter _))

theorem witnessTrades_nodup : witnessTrades.Nodup := by
  have hinj : Function.Injective (fun i : ℕ =>
      ({ symbol := "BTC/USD", timestamp := (i : ℤ), price := 1, size := 1,
         isBuyerMaker := false } : Trade)) := by
    intro a b hab
    simpa using congrArg Trade.timestamp hab
  exact List.Nodup.map hinj (List.nodup_range 150)

theorem getRecentTrades_saveTrades_witness :
    witnessTrades.Nodup
    ∧ ((saveTrades MemStorage.init witnessTrades).getRecentTrades "BTC/USD" 200
          = ((witnessTrades.filter (fun t => t.symbol = "BTC/USD")).reverse).take (min 200 100)
      ∧ ((saveTrades MemStorage.init witnessTrades).getRecentTrades "BTC/USD" 200).length
          = min 200 (min 100 (witnessTrades.filter (fun t => t.symbol = "BTC/USD")).length)
      ∧ ((saveTrades MemStorage.init witnessTrades).getRecentTrades "BTC/USD" 200).Nodup) :=
  ⟨witnessTrades_nodup,
   getRecentTrades_saveTrades witnessTrades "BTC/USD" 200 witnessTrades_nodup⟩

/-- C10: store writes are confined to their own symbol — `saveTrade` for a
trade on symbol `t.symbol` leaves `getRecentTrades` for any other symbol
unchanged and does not touch the snapshot map, and `saveLiquiditySnapshot`
for one symbol leaves `getLiquiditySnapshot` for any other symbol unchanged
and does not touch the trade map. -/
theorem store_writes_frame (st : MemStorage) (t : Trade)
    (snap : NormalizedLiquiditySnapshot) (s : String) (limit : ℕ)
    (hts : s ≠ t.symbol) (hss : s ≠ snap.symbol) :
    (st.saveTrade t).getRecentTrades s limit = st.getRecentTrades s limit
    ∧ (st.saveLiquiditySnapshot snap).getLiquiditySnapshot s
        = st.getLiquiditySnapshot s
    ∧ (st.saveTrade t).liquiditySnapshots = st.liquiditySnapshots
    ∧ (st.saveLiquiditySnapshot snap).tradeHistory = st.tradeHistory := by
  refine ⟨?_, ?_, rfl, rfl⟩
  · simp [MemStorage.getRecentTrades, MemStorage.saveTrade, hts]
  · simp [MemStorage.getLiquiditySnapshot, MemStorage.saveLiquiditySnapshot, hss]

theorem store_writes_frame_witness :
    ("BTC/USD" ≠ witnessEthTrade.symbol ∧ "BTC/USD" ≠ witnessEthSnapshot.symbol)
    ∧ ((MemStorage.init.saveTrade witnessEthTrade).getRecentTrades "BTC/USD" 5
          = MemStorage.init.getRecentTrades "BTC/USD" 5
      ∧ (MemStorage.init.saveLiquiditySnapshot witnessEthSnapshot).getLiquiditySnapshot "BTC/USD"
          = MemStorage.init.getLiquiditySnapshot "BTC/USD"
      ∧ (MemStorage.init.saveTrade witnessEthTrade).liquiditySnapshots
          = MemStorage.init.liquiditySnapshots
      ∧ (MemStorage.init.saveLiquiditySnapshot witnessEthSnapshot).tradeHistory
          = MemStorage.init.tradeHistory) :=
  ⟨⟨by decide, by decide⟩,
   store_writes_frame MemStorage.init witnessEthTrade witnessEthSnapshot "BTC/USD" 5
     (by decide) (by decide)⟩

/-- C6: a fresh cache entry (`now - timestamp < ttlMs`) is returned without
fetching and without changing the cache; otherwise a successful fetch is
returned and stored under the key with timestamp `now`; a failed fetch
propagates the error and leaves the cache unchanged. -/
theorem getCachedOrFetch_spec {α ε : Type}
    (apiCache : String → Option (CacheEntry α)) (now : ℤ) (cacheKey : String)
    (ttlMs : ℤ) (c : CacheEntry α) (d : α) (e : ε)
    (fetchResult : Except ε α) :
    (apiCache cacheKey = some c → now - c.timestamp < ttlMs →
       getCachedOrFetch apiCache now cacheKey ttlMs fetchResult
         = (Except.ok c.data, apiCache))
    ∧ ((∀ c', apiCache cacheKey = some c' → ¬ now - c'.timestamp < ttlMs) →
       getCachedOrFetch apiCache now cacheKey ttlMs (Except.ok d : Except ε α)
         = (Except.ok d,
            fun k => if k = cacheKey then some ⟨d, now⟩ else apiCache k))
    ∧ ((∀ c', apiCache cacheKey = some c' → ¬ now - c'.timestamp < ttlMs) →
       getCachedOrFetch apiCache now cacheKey ttlMs (Except.error e : Except ε α)
         = (Except.error e, apiCache)) := by
  refine ⟨?_, ?_, ?_⟩
  · intro hc hfresh
    simp [getCachedOrFetch, hc, hfresh]
  · intro hstale
    unfold getCachedOrFetch
    cases hc : apiCache cacheKey with
    | none => simp [fetchAndStore]
    | some c' => simp [fetchAndStore, hstale c' hc]
  · intro hstale
    unfold getCachedOrFetch
    cases hc : apiCache cacheKey with
    | none => simp [fetchAndStore]
    | some c' => simp [fetchAndStore, hstale c' hc]

theorem getCachedOrFetch_spec_witness :
    (witnessCache "k" = some ⟨5, 0⟩ ∧ (10 : ℤ) - (0 : ℤ) < 5000
     ∧ (∀ c', witnessCache "stale" = some c' → ¬ (10 : ℤ) - c'.timestamp < 5000))
    ∧ (getCachedOrFetch witnessCache 10 "k" 5000 (Except.error 3 : Except ℕ ℕ)
         = (Except.ok 5, witnessCache)
      ∧ getCachedOrFetch witnessCache 10 "stale" 5000 (Except.ok 7 : Except ℕ ℕ)
         = (Except.ok 7,
            fun k => if k = "stale" then some ⟨7, 10⟩ else witnessCache k)
      ∧ getCachedOrFetch witnessCache 10 "stale" 5000 (Except.error 3 : Except ℕ ℕ)
         = (Except.error 3, witnessCache)) := by
  have hmiss : ∀ c', witnessCache "stale" = some c' →
      ¬ (10 : ℤ) - c'.timestamp < 5000 := by
    intro c' hc'
    simp [witnessCache] at hc'
  refine ⟨⟨rfl, by decide, hmiss⟩, ?_, ?_, ?_⟩
  · exact (getCachedOrFetch_spec witnessCache 10 "k" 5000 ⟨5, 0⟩ 0 3
      (Except.error 3)).1 rfl (by decide)
  · exact (getCachedOrFetch_spec witnessCache 10 "stale" 5000 ⟨5, 0⟩ 7 3
      (Except.ok 7)).2.1 hmiss
  · exact (getCachedOrFetch_spec witnessCache 10 "stale" 5000 ⟨5, 0⟩ 7 3
      (Except.error 3)).2.2 hmiss

/-- C4 counterexample: with bid and ask price 1 and a draw of the randomness
source that returns 0 (a value `Math.random()` can produce), the first bid
level's price equals `bidPrice` — it is not strictly below it — so the claim
is false as stated. -/
theorem generateOrderBookData_strict_counterexample :
    ¬ (∀ l ∈ (generateOrderBookData 1 1 1 1 (fun _ => 0)).1, l.1 < 1) := by
  intro h
  have hmem : ((1 : ℚ), (4/5 : ℚ)) ∈ (generateOrderBookData 1 1 1 1 (fun _ => 0)).1 := by
    simp [generateOrderBookData, List.mem_map]
    exact ⟨0, by norm_num⟩
  exact absurd (h _ hmem) (by norm_num)

theorem orderBook_offset_nonneg (price r : ℚ) (i : ℕ)
    (hp : 0 < price) (hr : 0 ≤ r) :
    0 ≤ ((i : ℚ) * (5/10000) + (1/10000) * r) * price := by
  have hcast0 : (0 : ℚ) ≤ (i : ℚ) := Nat.cast_nonneg i
  nlinarith

theorem orderBook_offset_pos (price r : ℚ) (i : ℕ) (hi : 1 ≤ i)
    (hp : 0 < price) (hr : 0 ≤ r) :
    0 < ((i : ℚ) * (5/10000) + (1/10000) * r) * price := by
  have h1i : (1 : ℚ) ≤ (i : ℚ) := by exact_mod_cast hi
  nlinarith

theorem orderBook_size_nonneg (sz r : ℚ) (i : ℕ) (hi : i < 10)
    (hsz : 0 ≤ sz) (hr : 0 ≤ r) :
    0 ≤ sz * (1 - (i : ℚ) * (8/100)) * ((8/10) + r * (4/10)) := by
  have hcast : (i : ℚ) ≤ 9 := by exact_mod_cast Nat.le_of_lt_succ hi
  have h2 : 0 ≤ 1 - (i : ℚ) * (8/100) := by linarith
  have h3 : 0 ≤ (8/10 : ℚ) + r * (4/10) := by nlinarith
  positivity

/-- C4 amended: for `askPrice ≥ bidPrice > 0`, non-negative sizes and draws
in `[0, 1)`, `generateOrderBookData` produces exactly 10 bid and 10 ask
levels, every size is non-negative, every bid price is at most `bidPrice`
and every ask price is at least `askPrice`; the inequality is strict for
every level of index ≥ 1 (at level 0 the offset vanishes when the jitter
draw is 0, as the counterexample shows). -/
theorem generateOrderBookData_levels (bidPrice askPrice bidSize askSize : ℚ)
    (rand : ℕ → ℚ)
    (hb : 0 < bidPrice) (hba : bidPrice ≤ askPrice)
    (hbs : 0 ≤ bidSize) (has : 0 ≤ askSize)
    (hr : ∀ n, 0 ≤ rand n ∧ rand n < 1) :
    (generateOrderBookData bidPrice askPrice bidSize askSize rand).1.length = 10
    ∧ (generateOrderBookData bidPrice askPrice bidSize askSize rand).2.length = 10
    ∧ (∀ l ∈ (generateOrderBookData bidPrice askPrice bidSize askSize rand).1,
        0 ≤ l.2 ∧ l.1 ≤ bidPrice)
    ∧ (∀ l ∈ (generateOrderBookData bidPrice askPrice bidSize askSize rand).2,
        0 ≤ l.2 ∧ askPrice ≤ l.1)
    ∧ (∀ i : ℕ, 1 ≤ i → ∀ p s,
        (generateOrderBookData bidPrice askPrice bidSize askSize rand).1[i]?
            = some (p, s) → p < bidPrice)
    ∧ (∀ i : ℕ, 1 ≤ i → ∀ p s,
        (generateOrderBookData bidPrice askPrice bidSize askSize rand).2[i]?
            = some (p, s) → askPrice < p) := by
  have ha : 0 < askPrice := lt_of_lt_of_le hb hba
  have hr0 : ∀ n, 0 ≤ rand n := fun n => (hr n).1
  refine ⟨by simp [generateOrderBookData], by simp [generateOrderBookData],
    ?_, ?_, ?_, ?_⟩
  · intro l hl
    simp only [generateOrderBookData, List.mem_map, List.mem_range] at hl
    obtain ⟨i, hi, rfl⟩ := hl
    refine ⟨orderBook_size_nonneg _ _ i hi hbs (hr0 _), ?_⟩
    have := orderBook_offset_nonneg bidPrice (rand (2*i)) i hb (hr0 _)
    simpa using by linarith
  · intro l hl
    simp only [generateOrderBookData, List.mem_map, List.mem_range] at hl
    obtain ⟨i, hi, rfl⟩ := hl
    refine ⟨orderBook_size_nonneg _ _ i hi has (hr0 _), ?_⟩
    have := orderBook_offset_nonneg askPrice (rand (20+2*i)) i ha (hr0 _)
    simpa using by linarith
  · intro i h1i p s hget
    by_cases hi : i < 10
    · simp only [generateOrderBookData, List.getElem?_map,
        List.getElem?_range hi, Option.map_some] at hget
      have hp : p = bidPrice - ((i : ℚ) * (5/10000) + (1/10000) * rand (2*i)) * bidPrice := by
        have := congrArg Prod.fst (Option.some.inj hget)
        simpa using this.symm
      have := orderBook_offset_pos bidPrice (rand (2*i)) i h1i hb (hr0 _)
      rw [hp]
      linarith
    · exfalso
      have : (generateOrderBookData bidPrice askPrice bidSize askSize rand).1[i]? = none := by
        refine List.getElem?_eq_none ?_
        simp [generateOrderBookData]
        omega
      rw [this] at hget
      exact Option.noConfusion hget
  · intro i h1i p s hget
    by_cases hi : i < 10
    · simp only [generateOrderBookData, List.getElem?_map,
        List.getElem?_range hi, Option.map_some] at hget
      have hp : p = askPrice + ((i : ℚ) * (5/10000) + (1/10000) * rand (20+2*i)) * askPrice := by
        have := congrArg Prod.fst (Option.some.inj hget)
        simpa using this.symm
      have := orderBook_offset_pos askPrice (rand (20+2*i)) i h1i ha (hr0 _)
      rw [hp]
      linarith
    · exfalso
      have : (generateOrderBookData bidPrice askPrice bidSize askSize rand).2[i]? = none := by
        refine List.getElem?_eq_none ?_
        simp [generateOrderBookData]
        omega
      rw [this] at hget
      exact Option.noConfusion hget

theorem generateOrderBookData_levels_witness :
    ((0 : ℚ) < 1 ∧ (1 : ℚ) ≤ 2 ∧ (0 : ℚ) ≤ 1
      ∧ (∀ n : ℕ, 0 ≤ (fun _ : ℕ => (1/2 : ℚ)) n ∧ (fun _ : ℕ => (1/2 : ℚ)) n < 1))
    ∧ ((generateOrderBookData 1 2 1 1 (fun _ => 1/2)).1.length = 10
      ∧ (generateOrderBookData 1 2 1 1 (fun _ => 1/2)).2.length = 10
      ∧ (∀ l ∈ (generateOrderBookData 1 2 1 1 (fun _ => 1/2)).1,
          0 ≤ l.2 ∧ l.1 ≤ 1)
      ∧ (∀ l ∈ (generateOrderBookData 1 2 1 1 (fun _ => 1/2)).2,
          0 ≤ l.2 ∧ 2 ≤ l.1)
      ∧ (∀ i : ℕ, 1 ≤ i → ∀ p s,
          (generateOrderBookData 1 2 1 1 (fun _ => 1/2)).1[i]? = some (p, s) →
            p < 1)
      ∧ (∀ i : ℕ, 1 ≤ i → ∀ p s,
          (generateOrderBookData 1 2 1 1 (fun _ => 1/2)).2[i]? = some (p, s) →
            2 < p)) :=
  ⟨⟨by norm_num, by norm_num, by norm_num, fun n => ⟨by norm_num, by norm_num⟩⟩,
   generateOrderBookData_levels 1 2 1 1 (fun _ => 1/2) (by norm_num) (by norm_num)
     (by norm_num) (by norm_num) (fun n => ⟨by norm_num, by norm_num⟩)⟩

theorem jsRound_clamp_bounds (x : JsNum) :
    0 ≤ jsRound (JsNum.jsMax0 (JsNum.jsMin 100 x))
    ∧ jsRound (JsNum.jsMax0 (JsNum.jsMin 100 x)) ≤ 100 := by
  cases x with
  | negInf =>
      have h : jsRound (JsNum.jsMax0 (JsNum.jsMin 100 JsNum.negInf)) = 0 := by
        simp only [JsNum.jsMin, JsNum.jsMax0, jsRound]
        norm_num [Int.floor_eq_zero_iff]
      constructor <;> simp [h]
  | fin q =>
      have h0 : (0 : ℚ) ≤ max 0 (min 100 q) := le_max_left 0 _
      have h100 : max 0 (min 100 q) ≤ 100 := by
        rcases le_total 0 (min 100 q) with h | h
        · rw [max_eq_right h]
          exact le_trans (min_le_left _ _) (by norm_num)
        · rw [max_eq_left h]
          norm_num
      constructor
      · refine Int.le_floor.mpr ?_
        push_cast
        simp only [JsNum.jsMin, JsNum.jsMax0]
        linarith
      · have : jsRound (JsNum.jsMax0 (JsNum.jsMin 100 (JsNum.fin q))) < 101 := by
          refine Int.floor_lt.mpr ?_
          push_cast
          simp only [JsNum.jsMin, JsNum.jsMax0]
          linarith
        omega

/-- C3: for every choice of the `Math.log10` values — in particular for
`log10 0 = -Infinity` — and all rational inputs, the `liquidityScore`
produced by `calculateLiquidityMetrics` is an integer (it is `ℤ`-valued by
construction, mirroring `Math.round`) lying in `[0, 100]`; the clamp
`Math.max(0, Math.min(100, ·))` converts a `-Infinity` sum into 0 rather
than letting it surface. -/
theorem calculateLiquidityMetrics_score_bounds (log10 : ℚ → JsNum)
    (price bidPrice askPrice bidSize askSize volume24h : ℚ)
    (marketCap : Option ℚ) (depthLevels : Option DepthLevels) :
    0 ≤ (calculateLiquidityMetrics log10 price bidPrice askPrice bidSize
          askSize volume24h marketCap depthLevels).liquidityScore
    ∧ (calculateLiquidityMetrics log10 price bidPrice askPrice bidSize
          askSize volume24h marketCap depthLevels).liquidityScore ≤ 100 := by
  unfold calculateLiquidityMetrics
  exact jsRound_clamp_bounds _

/-- C5: when no depth levels are supplied, the returned `slippageImpact` is
exactly `(0.5, 1.5, 3) × spreadPercentage` of the same metrics record. -/
theorem calculateLiquidityMetrics_slippage_fallback (log10 : ℚ → JsNum)
    (price bidPrice askPrice bidSize askSize volume24h : ℚ)
    (marketCap : Option ℚ) :
    (calculateLiquidityMetrics log10 price bidPrice askPrice bidSize askSize
        volume24h marketCap none).slippageImpact.small
      = (calculateLiquidityMetrics log10 price bidPrice askPrice bidSize
          askSize volume24h marketCap none).spreadPercentage * (1/2)
    ∧ (calculateLiquidityMetrics log10 price bidPrice askPrice bidSize askSize
        volume24h marketCap none).slippageImpact.medium
      = (calculateLiquidityMetrics log10 price bidPrice askPrice bidSize
          askSize volume24h marketCap none).spreadPercentage * (3/2)
    ∧ (calculateLiquidityMetrics log10 price bidPrice askPrice bidSize askSize
        volume24h marketCap none).slippageImpact.large
      = (calculateLiquidityMetrics log10 price bidPrice askPrice bidSize
          askSize volume24h marketCap none).spreadPercentage * 3 := by
  refine ⟨rfl, rfl, rfl⟩

/-- C1: `fetchAllDataForSymbol` is total (failures become data, never
exceptions), and whenever every adapter in the chain fails — no fresh Yahoo
cache entry, the Yahoo quote call throws or returns no data, and the Alpha
Vantage daily fetch throws — it returns the zeroed error snapshot: all
price/size/volume fields 0, source `"error"`, liquidityScore 0,
marketDepthRatio 1, spreadPercentage 0 and all-zero slippageImpact. -/
theorem fetchAllDataForSymbol_all_fail (log10 : ℚ → JsNum) (symbol : String)
    (yahooCached : Option (CacheEntry NormalizedLiquiditySnapshot)) (now : ℤ)
    (yahooQuoteResult : Except Unit (Option YahooQuote))
    (marketCapQuoteResult : Except Unit (Option YahooQuote)) (rand : ℕ → ℚ)
    (hcache : ∀ c, yahooCached = some c → ¬ now - c.timestamp < 30000)
    (hyahoo : yahooQuoteResult = Except.error ()
      ∨ yahooQuoteResult = Except.ok none) :
    fetchAllDataForSymbol log10 symbol yahooCached now yahooQuoteResult
        marketCapQuoteResult AlphaVantageDailyResult.fetchError rand
      = errorSnapshot symbol now
    ∧ (errorSnapshot symbol now).bidPrice = 0
    ∧ (errorSnapshot symbol now).askPrice = 0
    ∧ (errorSnapshot symbol now).bidSize = 0
    ∧ (errorSnapshot symbol now).askSize = 0
    ∧ (errorSnapshot symbol now).volume24h = 0
    ∧ (errorSnapshot symbol now).source = "error"
    ∧ (errorSnapshot symbol now).liquidityScore = some 0
    ∧ (errorSnapshot symbol now).marketDepthRatio = some 1
    ∧ (errorSnapshot symbol now).spreadPercentage = some 0
    ∧ (errorSnapshot symbol now).slippageImpact
        = some { small := 0, medium := 0, large := 0 } := by
  have hQ : fetchYahooQuoteSnapshot symbol now yahooQuoteResult rand
      = Except.error () := by
    rcases hyahoo with h | h <;> rw [h] <;> rfl
  have hY : fetchYahooFinanceData symbol yahooCached now yahooQuoteResult rand
      = Except.error () := by
    cases yahooCached with
    | none => exact hQ
    | some c =>
        simp only [fetchYahooFinanceData, if_neg (hcache c rfl)]
        exact hQ
  have hmain : fetchAllDataForSymbol log10 symbol yahooCached now
      yahooQuoteResult marketCapQuoteResult AlphaVantageDailyResult.fetchError
      rand = errorSnapshot symbol now := by
    unfold fetchAllDataForSymbol
    rw [hY]
    rfl
  exact ⟨hmain, rfl, rfl, rfl, rfl, rfl, rfl, rfl, rfl, rfl, rfl⟩

theorem fetchAllDataForSymbol_all_fail_witness :
    ((∀ c, (none : Option (CacheEntry NormalizedLiquiditySnapshot)) = some c →
        ¬ (0 : ℤ) - c.timestamp < 30000)
      ∧ ((Except.error () : Except Unit (Option YahooQuote)) = Except.error ()
        ∨ (Except.error () : Except Unit (Option YahooQuote)) = Except.ok none))
    ∧ (fetchAllDataForSymbol (fun _ => JsNum.fin 0) "BTC/USD" none 0
          (Except.error ()) (Except.error ())
          AlphaVantageDailyResult.fetchError (fun _ => 0)
        = errorSnapshot "BTC/USD" 0
      ∧ (errorSnapshot "BTC/USD" 0).bidPrice = 0
      ∧ (errorSnapshot "BTC/USD" 0).askPrice = 0
      ∧ (errorSnapshot "BTC/USD" 0).bidSize = 0
      ∧ (errorSnapshot "BTC/USD" 0).askSize = 0
      ∧ (errorSnapshot "BTC/USD" 0).volume24h = 0
      ∧ (errorSnapshot "BTC/USD" 0).source = "error"
      ∧ (errorSnapshot "BTC/USD" 0).liquidityScore = some 0
      ∧ (errorSnapshot "BTC/USD" 0).marketDepthRatio = some 1
      ∧ (errorSnapshot "BTC/USD" 0).spreadPercentage = some 0
      ∧ (errorSnapshot "BTC/USD" 0).slippageImpact
          = some { small := 0, medium := 0, large := 0 }) :=
  ⟨⟨fun _ hc => Option.noConfusion hc, Or.inl rfl⟩,
   fetchAllDataForSymbol_all_fail (fun _ => JsNum.fin 0) "BTC/USD" none 0
     (Except.error ()) (Except.error ()) (fun _ => 0)
     (fun _ hc => Option.noConfusion hc) (Or.inl rfl)⟩

/-- C2: with no fresh cache entry, the fallback chain honors priority
order.  When the Yahoo quote succeeds the returned snapshot's source is
`"yahoo-finance"` and the result does not depend on the Alpha Vantage
argument (the second adapter is not consulted); when the Yahoo call fails
and the Alpha Vantage daily data parses a close price `p > 0`, the source is
`"alphavantage-daily"` and the snapshot's bid and ask straddle `p`:
`bidPrice = p·(1−0.001) < p < p·(1+0.001) = askPrice`. -/
theorem fetchAllDataForSymbol_priority (log10 : ℚ → JsNum) (symbol : String)
    (now : ℤ) (rand : ℕ → ℚ) (q : YahooQuote)
    (marketCapQuoteResult : Except Unit (Option YahooQuote))
    (d₁ d₂ : AlphaVantageDailyResult)
    (yq : Except Unit (Option YahooQuote)) (bar : AlphaVantageDailyBar)
    (p : ℚ)
    (hyfail : yq = Except.error () ∨ yq = Except.ok none)
    (hbar : bar.close = some p) (hp : 0 < p) :
    (fetchAllDataForSymbol log10 symbol none now (Except.ok (some q))
        marketCapQuoteResult d₁ rand
      = fetchAllDataForSymbol log10 symbol none now (Except.ok (some q))
        marketCapQuoteResult d₂ rand)
    ∧ (fetchAllDataForSymbol log10 symbol none now (Except.ok (some q))
        marketCapQuoteResult d₁ rand).source = "yahoo-finance"
    ∧ (fetchAllDataForSymbol log10 symbol none now yq marketCapQuoteResult
        (AlphaVantageDailyResult.latest bar) rand).source = "alphavantage-daily"
    ∧ (fetchAllDataForSymbol log10 symbol none now yq marketCapQuoteResult
        (AlphaVantageDailyResult.latest bar) rand).bidPrice = p * (1 - 1/1000)
    ∧ (fetchAllDataForSymbol log10 symbol none now yq marketCapQuoteResult
        (AlphaVantageDailyResult.latest bar) rand).askPrice = p * (1 + 1/1000)
    ∧ (fetchAllDataForSymbol log10 symbol none now yq marketCapQuoteResult
        (AlphaVantageDailyResult.latest bar) rand).bidPrice < p
    ∧ p < (fetchAllDataForSymbol log10 symbol none now yq marketCapQuoteResult
        (AlphaVantageDailyResult.latest bar) rand).askPrice := by
  have hResolve : resolveDailyClose symbol bar = p := by
    simp [resolveDailyClose, hbar]
  have hYfail : fetchYahooFinanceData symbol none now yq rand
      = Except.error () := by
    rcases hyfail with h | h <;> rw [h] <;> rfl
  have hbid : (fetchAllDataForSymbol log10 symbol none now yq
      marketCapQuoteResult (AlphaVantageDailyResult.latest bar) rand).bidPrice
      = p * (1 - 1/1000) := by
    unfold fetchAllDataForSymbol
    rw [hYfail]
    simp [fetchAlphaVantageDailyData, enrichSnapshot, hResolve]
  have hask : (fetchAllDataForSymbol log10 symbol none now yq
      marketCapQuoteResult (AlphaVantageDailyResult.latest bar) rand).askPrice
      = p * (1 + 1/1000) := by
    unfold fetchAllDataForSymbol
    rw [hYfail]
    simp [fetchAlphaVantageDailyData, enrichSnapshot, hResolve]
  have hsrc : (fetchAllDataForSymbol log10 symbol none now yq
      marketCapQuoteResult (AlphaVantageDailyResult.latest bar) rand).source
      = "alphavantage-daily" := by
    unfold fetchAllDataForSymbol
    rw [hYfail]
    rfl
  refine ⟨rfl, rfl, hsrc, hbid, hask, ?_, ?_⟩
  · rw [hbid]
    nlinarith
  · rw [hask]
    nlinarith

theorem fetchAllDataForSymbol_priority_witness :
    (((Except.error () : Except Unit (Option YahooQuote)) = Except.error ()
        ∨ (Except.error () : Except Unit (Option YahooQuote)) = Except.ok none)
      ∧ witnessDailyBar.close = some 2000 ∧ (0 : ℚ) < 2000)
    ∧ ((fetchAllDataForSymbol (fun _ => JsNum.fin 0) "ETH/USD" none 0
          (Except.ok (some witnessYahooQuote)) (Except.error ())
          AlphaVantageDailyResult.fetchError (fun _ => 0)
        = fetchAllDataForSymbol (fun _ => JsNum.fin 0) "ETH/USD" none 0
          (Except.ok (some witnessYahooQuote)) (Except.error ())
          AlphaVantageDailyResult.noTimeSeries (fun _ => 0))
      ∧ (fetchAllDataForSymbol (fun _ => JsNum.fin 0) "ETH/USD" none 0
          (Except.ok (some witnessYahooQuote)) (Except.error ())
          AlphaVantageDailyResult.fetchError (fun _ => 0)).source
          = "yahoo-finance"
      ∧ (fetchAllDataForSymbol (fun _ => JsNum.fin 0) "ETH/USD" none 0
          (Except.error ()) (Except.error ())
          (AlphaVantageDailyResult.latest witnessDailyBar) (fun _ => 0)).source
          = "alphavantage-daily"
      ∧ (fetchAllDataForSymbol (fun _ => JsNum.fin 0) "ETH/USD" none 0
          (Except.error ()) (Except.error ())
          (AlphaVantageDailyResult.latest witnessDailyBar)
          (fun _ => 0)).bidPrice = 2000 * (1 - 1/1000)
      ∧ (fetchAllDataForSymbol (fun _ => JsNum.fin 0) "ETH/USD" none 0
          (Except.error ()) (Except.error ())
          (AlphaVantageDailyResult.latest witnessDailyBar)
          (fun _ => 0)).askPrice = 2000 * (1 + 1/1000)
      ∧ (fetchAllDataForSymbol (fun _ => JsNum.fin 0) "ETH/USD" none 0
          (Except.error ()) (Except.error ())
          (AlphaVantageDailyResult.latest witnessDailyBar)
          (fun _ => 0)).bidPrice < 2000
      ∧ (2000 : ℚ) < (fetchAllDataForSymbol (fun _ => JsNum.fin 0) "ETH/USD"
          none 0 (Except.error ()) (Except.error ())
          (AlphaVantageDailyResult.latest witnessDailyBar)
          (fun _ => 0)).askPrice) :=
  ⟨⟨Or.inl rfl, rfl, by norm_num⟩,
   fetchAllDataForSymbol_priority (fun _ => JsNum.fin 0) "ETH/USD" 0
     (fun _ => 0) witnessYahooQuote (Except.error ())
     AlphaVantageDailyResult.fetchError AlphaVantageDailyResult.noTimeSeries
     (Except.error ()) witnessDailyBar 2000 (Or.inl rfl) rfl (by norm_num)⟩

/-- C8 counterexample: a Yahoo quote whose `regularMarketPrice` is missing
is defaulted to 0 by `regularMarketPrice || 0`, so the adapter returns a
snapshot with source `"yahoo-finance"` — not an error tag — whose bid and
ask prices are 0, which is not positive.  This refutes the claim that every
successful adapter snapshot has positive bid and ask prices. -/
theorem yahoo_missing_price_counterexample :
    (fetchYahooFinanceData "BTC/USD" none 0
        (Except.ok (some missingPriceQuote))
        (fun _ => 0)).toOption.map
        (fun s => (s.source, s.bidPrice, s.askPrice))
      = some ("yahoo-finance", 0, 0)
    ∧ ¬ (0 : ℚ) < 0 := by
  constructor
  · simp only [fetchYahooFinanceData, fetchYahooQuoteSnapshot,
      missingPriceQuote, Option.getD_none, Option.getD_some]
    norm_num
    exact ⟨_, rfl, rfl, rfl, rfl⟩
  · norm_num

/-- C8 amended: a successful adapter snapshot built from a non-negative
reference price `p` satisfies `0 ≤ bidPrice ≤ askPrice`, and both
inequalities are strict — positive bid, ask strictly above bid — exactly
when `p > 0` (the Yahoo adapter defaults a missing price to 0 and then
emits `bid = ask = 0`); saved snapshots are returned by the store
unchanged, so the same bounds hold for what the store retains. -/
theorem adapter_quote_ordering (symbol : String) (now : ℤ) (rand : ℕ → ℚ)
    (q : YahooQuote) (bar : AlphaVantageDailyBar) (st : MemStorage)
    (snap : NormalizedLiquiditySnapshot)
    (hq : 0 ≤ q.regularMarketPrice.getD 0)
    (hbar : 0 ≤ resolveDailyClose symbol bar) :
    (∀ s, fetchYahooQuoteSnapshot symbol now (Except.ok (some q)) rand
        = Except.ok s →
      0 ≤ s.bidPrice ∧ s.bidPrice ≤ s.askPrice
      ∧ (0 < q.regularMarketPrice.getD 0 →
          0 < s.bidPrice ∧ s.bidPrice < s.askPrice))
    ∧ (∀ s, fetchAlphaVantageDailyData symbol
        (AlphaVantageDailyResult.latest bar) now rand = Except.ok s →
      0 ≤ s.bidPrice ∧ s.bidPrice ≤ s.askPrice
      ∧ (0 < resolveDailyClose symbol bar →
          0 < s.bidPrice ∧ s.bidPrice < s.askPrice))
    ∧ (st.saveLiquiditySnapshot snap).getLiquiditySnapshot snap.symbol
        = some snap := by
  refine ⟨?_, ?_, ?_⟩
  · intro s hs
    simp only [fetchYahooQuoteSnapshot] at hs
    have hs' := Except.ok.inj hs
    subst hs'
    refine ⟨by nlinarith, by nlinarith, fun hpos => ⟨by nlinarith, by nlinarith⟩⟩
  · intro s hs
    simp only [fetchAlphaVantageDailyData] at hs
    have hs' := Except.ok.inj hs
    subst hs'
    refine ⟨by nlinarith, by nlinarith, fun hpos => ⟨by nlinarith, by nlinarith⟩⟩
  · simp [MemStorage.saveLiquiditySnapshot, MemStorage.getLiquiditySnapshot]

theorem adapter_quote_ordering_witness :
    ((0 : ℚ) ≤ witnessYahooQuote.regularMarketPrice.getD 0
      ∧ (0 : ℚ) ≤ resolveDailyClose "BTC/USD" witnessDailyBar)
    ∧ ((∀ s, fetchYahooQuoteSnapshot "BTC/USD" 0
          (Except.ok (some witnessYahooQuote)) (fun _ => 0) = Except.ok s →
        0 ≤ s.bidPrice ∧ s.bidPrice ≤ s.askPrice
        ∧ (0 < witnessYahooQuote.regularMarketPrice.getD 0 →
            0 < s.bidPrice ∧ s.bidPrice < s.askPrice))
      ∧ (∀ s, fetchAlphaVantageDailyData "BTC/USD"
          (AlphaVantageDailyResult.latest witnessDailyBar) 0 (fun _ => 0)
            = Except.ok s →
        0 ≤ s.bidPrice ∧ s.bidPrice ≤ s.askPrice
        ∧ (0 < resolveDailyClose "BTC/USD" witnessDailyBar →
            0 < s.bidPrice ∧ s.bidPrice < s.askPrice))
      ∧ (MemStorage.init.saveLiquiditySnapshot witnessEthSnapshot).getLiquiditySnapshot
          witnessEthSnapshot.symbol = some witnessEthSnapshot) :=
  ⟨⟨by norm_num [witnessYahooQuote],
    by norm_num [resolveDailyClose, witnessDailyBar]⟩,
   adapter_quote_ordering "BTC/USD" 0 (fun _ => 0) witnessYahooQuote
     witnessDailyBar MemStorage.init witnessEthSnapshot
     (by norm_num [witnessYahooQuote])
     (by norm_num [resolveDailyClose, witnessDailyBar])⟩

/-- C9: when every stored snapshot of a configured symbol has a computed
`liquidityScore` (which every snapshot the aggregation pipeline saves
does), the comparison endpoint returns exactly the projections of the
non-`"error"` stored snapshots, in an order sorted by `liquidityScore`
descending. -/
theorem marketComparison_spec (st : MemStorage)
    (hscore : ∀ symbol snap, symbol ∈ st.symbols →
      st.liquiditySnapshots symbol = some snap → snap.liquidityScore.isSome) :
    ∃ l : List NormalizedLiquiditySnapshot,
      l.Perm (eligibleSnapshots st)
      ∧ l.Pairwise (fun a b =>
          b.liquidityScore.getD 0 ≤ a.liquidityScore.getD 0)
      ∧ marketComparison st = l.map comparisonProjection := by
  have hall : ∀ s ∈ eligibleSnapshots st, s.liquidityScore.isSome := by
    intro s hs
    simp only [eligibleSnapshots, List.mem_filterMap] at hs
    obtain ⟨symbol, hsym, hmatch⟩ := hs
    cases hlook : st.liquiditySnapshots symbol with
    | none => rw [hlook] at hmatch; exact Option.noConfusion hmatch
    | some snap =>
        rw [hlook] at hmatch
        dsimp only at hmatch
        by_cases herr : snap.source = "error"
        · rw [if_pos herr] at hmatch
          exact Option.noConfusion hmatch
        · rw [if_neg herr] at hmatch
          have := Option.some.inj hmatch
          subst this
          exact hscore symbol _ hsym hlook
  have hfilter : (eligibleSnapshots st).filter
      (fun s => s.liquidityScore.isSome) = eligibleSnapshots st :=
    List.filter_eq_self.mpr (fun a ha => by simpa using hall a ha)
  refine ⟨(eligibleSnapshots st).mergeSort scoreGe, ?_, ?_, ?_⟩
  · exact List.mergeSort_perm _ _
  · have hp : ((eligibleSnapshots st).mergeSort scoreGe).Pairwise
        (fun a b => scoreGe a b) := by
      refine List.sorted_mergeSort ?_ ?_ _
      · intro a b c hab hbc
        simp only [scoreGe, decide_eq_true_eq] at hab hbc ⊢
        omega
      · intro a b
        simp only [scoreGe]
        by_cases h : b.liquidityScore.getD 0 ≤ a.liquidityScore.getD 0
        · simp [h]
        · simp [h]
          omega
    refine hp.imp ?_
    intro a b hab
    simpa [scoreGe] using hab
  · unfold marketComparison
    rw [hfilter]

theorem marketComparison_spec_witness :
    (∀ symbol snap, symbol ∈ witnessStore.symbols →
        witnessStore.liquiditySnapshots symbol = some snap →
        snap.liquidityScore.isSome)
    ∧ (∃ l : List NormalizedLiquiditySnapshot,
        l.Perm (eligibleSnapshots witnessStore)
        ∧ l.Pairwise (fun a b =>
            b.liquidityScore.getD 0 ≤ a.liquidityScore.getD 0)
        ∧ marketComparison witnessStore = l.map comparisonProjection) := by
  have hscore : ∀ symbol snap, symbol ∈ witnessStore.symbols →
      witnessStore.liquiditySnapshots symbol = some snap →
      snap.liquidityScore.isSome := by
    intro symbol snap hsym hlook
    simp only [witnessStore, List.mem_singleton] at hsym
    subst hsym
    simp only [witnessStore, if_pos rfl] at hlook
    have := Option.some.inj hlook
    subst this
    rfl
  exact ⟨hscore, marketComparison_spec witnessStore hscore⟩

end CryptoLiquid
